import Mathlib

/-!
Verification of the secret-retrieval and decode pipeline of a keychain-backed
environment loader (`src/lib/keychain-env.js`).

The JavaScript source is shallowly embedded: pure helpers become Lean
functions on `List Char` / `String`; the external collaborators (the
`security` subprocess, `Buffer.toString`, the plist parser, `dotenv.parse`,
`fs.readFileSync`) are abstracted as fields of a `SysWorld` record; the
process environment is an explicit map `String → Option String`; thrown
exceptions become an `Except` result.
-/

/-- JS string whitespace recognized by `parseInt` when trimming its input
(the common members of ECMAScript StrWhiteSpace). -/
def jsWhitespace (c : Char) : Bool :=
  c = ' ' || c = '\t' || c = '\n' || c = '\r' || c = '\u000B' || c = '\u000C' ||
  c = '\u00A0' || c = '\uFEFF'

/-- Value of a single ASCII hex digit, as accepted by `parseInt(_, 16)`
(case-insensitive); `none` for every other character. -/
def hexVal (c : Char) : Option Nat :=
  let n := c.toNat
  if 48 ≤ n ∧ n ≤ 57 then some (n - 48)
  else if 97 ≤ n ∧ n ≤ 102 then some (n - 97 + 10)
  else if 65 ≤ n ∧ n ≤ 70 then some (n - 65 + 10)
  else none

/-- `parseInt(_, 16)` strips an optional `0x` / `0X` after the sign. -/
def strip0x : List Char → List Char
  | '0' :: 'x' :: r => r
  | '0' :: 'X' :: r => r
  | r => r

/-- Longest leading run of hex digits, evaluated as a base-16 numeral;
`none` when there is no leading digit (JS `NaN`). -/
def parseHexDigits (s : List Char) : Option Nat :=
  let ds := s.takeWhile fun c => (hexVal c).isSome
  match ds with
  | [] => none
  | _ => some (ds.foldl (fun acc c => 16 * acc + (hexVal c).getD 0) 0)

/-- JavaScript `parseInt(s, 16)`: trim leading whitespace, accept an optional
sign and an optional `0x`/`0X` prefix, then parse the longest run of hex
digits; `none` models `NaN`. Trailing garbage is ignored. -/
def parseIntHex (s : List Char) : Option Int :=
  let t := s.dropWhile jsWhitespace
  match t with
  | '-' :: r => (parseHexDigits (strip0x r)).map fun n => -(n : Int)
  | '+' :: r => (parseHexDigits (strip0x r)).map fun n => (n : Int)
  | r => (parseHexDigits (strip0x r)).map fun n => (n : Int)

/-- Storing a JS number into a `Uint8Array` slot: `NaN` becomes `0`, any
other integer is reduced modulo `2^8`. -/
def jsUint8 : Option Int → Nat
  | none => 0
  | some v => (v % 256).toNat

/-- The loop of `decodeHex`: `for (let i = 0; i < hexString.length; i += 2)`
take the two-character slice `hexString.slice(i, i + 2)` (one character at an
odd end), parse it with `parseInt(_, 16)`, and write the byte to
`uint8[i / 2]`.  The list `arr` models the `Uint8Array`; writing past its end
is dropped, exactly as a typed-array out-of-bounds store is.  The remaining
input is consumed two characters per step while `k` tracks `i / 2`. -/
def decodeHexLoop : List Char → Nat → List Nat → List Nat
  | [], _, arr => arr
  | [c], k, arr => arr.set k (jsUint8 (parseIntHex [c]))
  | c :: d :: rest, k, arr => decodeHexLoop rest (k + 1) (arr.set k (jsUint8 (parseIntHex [c, d])))

/-- Byte-level core of `decodeHex`: the contents of the
`Uint8Array(hexString.length / 2)` after the decode loop (the constructor
length argument goes through `ToIndex`, which truncates `length / 2` to the
floor for odd lengths). -/
def decodeHexBytes (s : List Char) : List Nat :=
  decodeHexLoop s 0 (List.replicate (s.length / 2) 0)

/-- Modelled from the spec: hex digit characters for the encoding side
(`hexEncode`), which the repository itself does not implement (the store
tool emits the hex). -/
def hexDigitChar (n : Nat) : Char :=
  match n with
  | 0 => '0' | 1 => '1' | 2 => '2' | 3 => '3' | 4 => '4' | 5 => '5' | 6 => '6' | 7 => '7'
  | 8 => '8' | 9 => '9' | 10 => 'A' | 11 => 'B' | 12 => 'C' | 13 => 'D' | 14 => 'E' | 15 => 'F'
  | _ => '0'

/-- Modelled from the spec: `hexEncode`, the inverse direction of section 4.1
("interpreting each consecutive digit pair as one byte value"); each byte
becomes its two ASCII hex digits.  The repository only contains the decoder. -/
def hexEncode : List Nat → List Char
  | [] => []
  | b :: bs => hexDigitChar (b / 16) :: hexDigitChar (b % 16) :: hexEncode bs

theorem decodeHexLoop_length : ∀ (l : List Char) (k : Nat) (arr : List Nat),
    (decodeHexLoop l k arr).length = arr.length
  | [], _, _ => rfl
  | [_], _, arr => by simp [decodeHexLoop]
  | _ :: _ :: rest, k, arr => by
      simp [decodeHexLoop, decodeHexLoop_length rest (k + 1)]

theorem hexEncode_length : ∀ bs : List Nat, (hexEncode bs).length = 2 * bs.length
  | [] => rfl
  | _ :: bs => by simp [hexEncode, hexEncode_length bs]; omega

theorem parseIntHex_pair :
    ∀ hi < 16, ∀ lo < 16,
      parseIntHex [hexDigitChar hi, hexDigitChar lo] = some ((16 * hi + lo : Nat) : Int) := by
  decide

theorem hexPair_byte (b : Nat) (hb : b < 256) :
    jsUint8 (parseIntHex [hexDigitChar (b / 16), hexDigitChar (b % 16)]) = b := by
  rw [parseIntHex_pair (b / 16) (by omega) (b % 16) (by omega)]
  have hdm : 16 * (b / 16) + b % 16 = b := by omega
  simp [jsUint8, hdm]
  omega

theorem set_append_cons (pre : List Nat) (x b : Nat) (t : List Nat) :
    (pre ++ x :: t).set pre.length b = pre ++ b :: t := by
  induction pre with
  | nil => rfl
  | cons p pre ih => simp [List.set, ih]

theorem decodeHexLoop_encode : ∀ (bs : List Nat) (pre : List Nat),
    (∀ b ∈ bs, b < 256) →
    decodeHexLoop (hexEncode bs) pre.length (pre ++ List.replicate bs.length 0) = pre ++ bs
  | [], pre, _ => by simp [hexEncode, decodeHexLoop]
  | b :: bs, pre, h => by
      have hb : b < 256 := h b (List.mem_cons_self b bs)
      have hrest : ∀ x ∈ bs, x < 256 := fun x hx => h x (List.mem_cons_of_mem b hx)
      have step := decodeHexLoop_encode bs (pre ++ [b]) hrest
      simp only [hexEncode, decodeHexLoop, List.length_cons, List.replicate_succ]
      rw [set_append_cons pre 0 (jsUint8 (parseIntHex [hexDigitChar (b / 16), hexDigitChar (b % 16)])) (List.replicate bs.length 0)]
      rw [hexPair_byte b hb]
      have hlen : pre.length + 1 = (pre ++ [b]).length := by simp
      rw [hlen]
      have harr : pre ++ b :: List.replicate bs.length 0 = (pre ++ [b]) ++ List.replicate bs.length 0 := by simp
      rw [harr, step]
      simp

/-- C6: for every byte sequence (bytes, i.e. values below 256), hex-encoding
it and then running the hex-byte decoder returns the original byte sequence. -/
theorem decodeHex_hexEncode_roundtrip (bs : List Nat) (h : ∀ b ∈ bs, b < 256) :
    decodeHexBytes (hexEncode bs) = bs := by
  have hlen : (hexEncode bs).length / 2 = bs.length := by
    rw [hexEncode_length]; omega
  have := decodeHexLoop_encode bs [] h
  simpa [decodeHexBytes, hlen] using this

theorem decodeHex_hexEncode_roundtrip_witness :
    (∀ b ∈ [234, 147, 240, 55], b < 256) ∧ decodeHexBytes (hexEncode [234, 147, 240, 55]) = [234, 147, 240, 55] :=
  ⟨by decide, decodeHex_hexEncode_roundtrip [234, 147, 240, 55] (by decide)⟩

/-- C5 (amended): `decodeHex` never fails: it is total, and always produces
exactly `length / 2` bytes; on odd-length input the trailing half pair is
parsed but its write lands past the end of the `Uint8Array` and is silently
dropped, and unparsable pairs coerce to byte 0 (`NaN` stored into the typed
array) or to the value of their leading digit. -/
theorem decodeHexBytes_total_length (s : List Char) :
    (decodeHexBytes s).length = s.length / 2 := by
  simp [decodeHexBytes, decodeHexLoop_length]

/-- C5 counterexample: the decoder accepts odd-length input `"414"`
(silently truncating it to the single byte 0x41) and non-hex input `"ZZ"`
(producing the byte 0), instead of failing with a `DecodeError`. -/
theorem decodeHex_silent_truncation :
    decodeHexBytes ['4', '1', '4'] = [65] ∧ decodeHexBytes ['Z', 'Z'] = [0] := by
  constructor <;> rfl

/-- The JS regex replace `str.replace(/\\([\s\S])|(")/g, "\\$1$2")` of
`escapeDoubleQuotes`, as a single left-to-right scan over the characters:
a backslash followed by any character matches the first alternative and is
replaced by itself (backslash, `$1`); an unpaired double quote matches the
second alternative and is replaced by backslash-quote; everything else
(including a lone trailing backslash, which matches neither alternative)
is copied unchanged. -/
def escapeDQchars : List Char → List Char
  | [] => []
  | ['\\'] => ['\\']
  | '\\' :: d :: rest2 => '\\' :: d :: escapeDQchars rest2
  | c :: rest => if c = '"' then '\\' :: '"' :: escapeDQchars rest else c :: escapeDQchars rest

/-- `escapeDoubleQuotes` from the source, on `String`. -/
def escapeDoubleQuotes (str : String) : String :=
  ⟨escapeDQchars str.data⟩

/-- Scanner for text embedded between double quotes: accepts exactly when no
double quote terminates the surrounding quoting early, i.e. every `"` occurs
as the second character of a backslash pair. -/
def dqOk : List Char → Bool
  | [] => true
  | ['\\'] => true
  | '\\' :: _ :: rest2 => dqOk rest2
  | c :: rest => if c = '"' then false else dqOk rest

theorem dqOk_escapeDQchars : ∀ s : List Char, dqOk (escapeDQchars s) = true
  | [] => rfl
  | c :: rest => by
      by_cases hbs : c = '\\'
      · subst hbs
        cases rest with
        | nil => rfl
        | cons d rest2 => simp [escapeDQchars, dqOk, dqOk_escapeDQchars rest2]
      · by_cases hq : c = '"'
        · subst hq
          simp [escapeDQchars, dqOk, dqOk_escapeDQchars rest]
        · simp [escapeDQchars, dqOk, hbs, hq, dqOk_escapeDQchars rest]

theorem escapeDQchars_no_backslash : ∀ s : List Char, (∀ c ∈ s, c ≠ '\\') →
    escapeDQchars s = s.flatMap (fun c => if c = '"' then ['\\', '"'] else [c])
  | [], _ => rfl
  | c :: rest, h => by
      have hc : c ≠ '\\' := h c (List.mem_cons_self c rest)
      have hrest := escapeDQchars_no_backslash rest (fun x hx => h x (List.mem_cons_of_mem c hx))
      by_cases hq : c = '"'
      · subst hq; simp [escapeDQchars, hrest]
      · simp [escapeDQchars, hc, hq, hrest]

/-- C2 (amended): the escaper is a single left-to-right pass that escapes
each double quote not already part of a backslash pair and leaves backslash
pairs (and a trailing lone backslash) unchanged — backslashes themselves are
never escaped.  Consequently every double quote in the output sits inside a
backslash pair (the embedded text never closes the surrounding double
quotes early), and on inputs without backslashes the output is exactly the
input with each `"` replaced by `\"`. -/
theorem escapeDoubleQuotes_scan (s : List Char) :
    dqOk (escapeDQchars s) = true ∧
    ((∀ c ∈ s, c ≠ '\\') →
      escapeDQchars s = s.flatMap (fun c => if c = '"' then ['\\', '"'] else [c])) :=
  ⟨dqOk_escapeDQchars s, escapeDQchars_no_backslash s⟩

theorem escapeDoubleQuotes_scan_witness :
    dqOk (escapeDQchars ['"', 'a']) = true ∧
    escapeDQchars ['"', 'a'] = ['\\', '"', 'a'] :=
  ⟨(escapeDoubleQuotes_scan ['"', 'a']).1,
    ((escapeDoubleQuotes_scan ['"', 'a']).2 (by decide)).trans (by decide)⟩

/-- C2 counterexample: on the two-character input backslash-quote the escaper
returns the input unchanged — neither the backslash nor the double quote gets
escaped (both escaped would be the four characters backslash backslash
backslash quote), refuting "escapes every backslash and every double-quote". -/
theorem escapeDoubleQuotes_backslash_quote_unchanged :
    escapeDoubleQuotes "\\\"" = "\\\"" ∧
    escapeDoubleQuotes "\\\"" ≠ "\\\\\\\"" := by
  constructor <;> decide

/-- JS `s.indexOf(p) >= 0`: `p` occurs as a contiguous substring of `s`
(at some position, possibly the very end for the empty pattern). -/
def containsStr (p : List Char) : List Char → Bool
  | [] => p.isPrefixOf []
  | c :: rest => p.isPrefixOf (c :: rest) || containsStr p rest

/-- The fixed Apple property-list DTD preamble tested for by
`noteFromPList`. -/
def plistPreamble : String :=
  "<!DOCTYPE plist PUBLIC \"-//Apple//DTD PLIST 1.0//EN\" \"http://www.apple.com/DTDs/PropertyList-1.0.dtd\">"

/-- `noteFromPList`, parameterized by the external plist parser
(`plistparser.parse`): the parser either throws (`Except.error`) or returns
a document modelled as a field lookup `String → Option String` (a missing
field, JS `undefined`, is `none`).  If the preamble occurs in the input the
function returns the document's `NOTE` field (possibly `undefined`);
otherwise it returns the input unchanged.  The outer `Except` is the
function's own throw behaviour; its returned JS value is an
`Option String` since `p.NOTE` can be `undefined`. -/
def noteFromPList (plist : String → Except Unit (String → Option String))
    (plistString : String) : Except Unit (Option String) :=
  if containsStr plistPreamble.data plistString.data then
    match plist plistString with
    | Except.error e => Except.error e
    | Except.ok p => Except.ok (p "NOTE")
  else
    Except.ok (some plistString)

/-- C7: if the decoded text contains the property-list preamble and the
parsed document's `NOTE` field equals `v`, the detector returns exactly `v`;
if the text does not contain the preamble, the detector returns the input
text unchanged. -/
theorem noteFromPList_spec (plist : String → Except Unit (String → Option String))
    (s : String) :
    (∀ p v, containsStr plistPreamble.data s.data = true → plist s = Except.ok p →
      p "NOTE" = some v → noteFromPList plist s = Except.ok (some v)) ∧
    (containsStr plistPreamble.data s.data = false →
      noteFromPList plist s = Except.ok (some s)) := by
  constructor
  · intro p v hpre hparse hnote
    simp [noteFromPList, hpre, hparse, hnote]
  · intro hpre
    simp [noteFromPList, hpre]

theorem noteFromPList_spec_witness :
    noteFromPList (fun _ => Except.ok fun k => if k = "NOTE" then some "A=1" else none)
      plistPreamble = Except.ok (some "A=1") ∧
    noteFromPList (fun _ => Except.ok fun k => if k = "NOTE" then some "A=1" else none)
      "A=1" = Except.ok (some "A=1") :=
  ⟨(noteFromPList_spec (fun _ => Except.ok fun k => if k = "NOTE" then some "A=1" else none)
      plistPreamble).1 (fun k => if k = "NOTE" then some "A=1" else none) "A=1"
      (by decide) rfl (by decide),
   (noteFromPList_spec (fun _ => Except.ok fun k => if k = "NOTE" then some "A=1" else none)
      "A=1").2 (by decide)⟩

/-- C3 (amended): when the preamble is present the detector never falls back
to the raw input branch: a throw of the external plist parser propagates,
and a successfully parsed document without a `NOTE` field makes the detector
return the `undefined` value (`none`) — no `MalformedRecordError` is
signalled in that case. -/
theorem noteFromPList_preamble_branch (plist : String → Except Unit (String → Option String))
    (s : String) (hpre : containsStr plistPreamble.data s.data = true) :
    (plist s = Except.error () → noteFromPList plist s = Except.error ()) ∧
    (∀ p, plist s = Except.ok p → noteFromPList plist s = Except.ok (p "NOTE")) := by
  constructor
  · intro hparse; simp [noteFromPList, hpre, hparse]
  · intro p hparse; simp [noteFromPList, hpre, hparse]

theorem noteFromPList_preamble_branch_witness :
    noteFromPList (fun _ => Except.error ()) plistPreamble = Except.error () :=
  (noteFromPList_preamble_branch (fun _ => Except.error ()) plistPreamble (by decide)).1 rfl

/-- C3 counterexample: preamble present, the external parse succeeds but the
document has no `NOTE` field — the detector returns JS `undefined`
(`Except.ok none`) instead of signalling a `MalformedRecordError`. -/
theorem noteFromPList_missing_note_no_error :
    noteFromPList (fun _ => Except.ok fun _ => none) plistPreamble = Except.ok none := by
  rfl

/-- Process environment: variable name to value, `none` = unset
(JS `undefined`). -/
abbrev EnvMap := String → Option String

/-- Outcome of an `execSync` invocation: captured stdout on success, or a
thrown error carrying `e.status` (`none` models a `null` status, as produced
when the subprocess is killed on timeout). -/
inductive ExecResult where
  | ok (stdout : String)
  | err (status : Option Int)
deriving DecidableEq

/-- The thrown `Error` values of the module, as observable outcomes:
`msg` is the explicit `new Error(...)` for a missing note name, `exec` is a
rethrown subprocess error with its `status`, `fsErr` a `readFileSync`
failure, `plistErr` a throw of the external plist parser, and `typeErr` the
`TypeError` raised by `dotenv.parse(undefined)` when `noteFromPList`
returned `undefined`. -/
inductive JsErr where
  | msg (s : String)
  | exec (status : Option Int)
  | fsErr
  | plistErr
  | typeErr
deriving DecidableEq

/-- The external collaborators of the module: the subprocess runner
(a function of the full command string and the `timeout` option), Node's
`Buffer.toString` UTF-8 interpretation of the decoded bytes, the plist
parser, `dotenv.parse` (returning an ordered mapping with unique keys), and
`fs.readFileSync` (`none` = throws). -/
structure SysWorld where
  exec : String → Option Nat → ExecResult
  toStr : List Nat → String
  plist : String → Except Unit (String → Option String)
  dotenv : String → List (String × String)
  fsRead : String → Option String

/-- The caller's `options` object.  A `none` field is an absent (JS
`undefined`) property. -/
structure KOptions where
  overwrite : Option Bool
  timeout : Option Nat
  template : Option String
  templatePath : Option String
deriving DecidableEq

/-- JS truthiness of an optional string property: `undefined` and the empty
string are falsy. -/
def strTruthy : Option String → Bool
  | none => false
  | some s => s ≠ ""

/-- `decodeHex` from the source: hex text to the byte sequence, then
`Buffer.toString()` (UTF-8, an external capability of `w`). -/
def decodeHex (w : SysWorld) (hexString : String) : String :=
  w.toStr (decodeHexBytes hexString.data)

/-- The `security find-generic-password` command string built by
`setEnvFromNote`. -/
def readCmd (noteName : String) : String :=
  "/usr/bin/security find-generic-password -C note -s \"" ++ noteName ++ "\" -w"

/-- The `security add-generic-password` command string built by `writeNote`
(with already-escaped contents interpolated). -/
def writeCmd (noteName contents : String) : String :=
  "/usr/bin/security add-generic-password -D \"secure note\" -C note -a \"\" -s \"" ++
    noteName ++ "\" -w \"" ++ contents ++ "\""

/-- Result of `writeNote`: the subprocess invocations it issued (command and
`timeout` option) and its return/throw outcome. -/
structure WriteOutcome where
  calls : List (String × Option Nat)
  result : Except JsErr Unit

/-- The tail of `writeNote` once contents are resolved: escape the contents,
build the command, run it with `options.timeout`. -/
def runWrite (w : SysWorld) (noteName : String) (timeout : Option Nat)
    (contents : String) : WriteOutcome :=
  let cmd := writeCmd noteName (escapeDoubleQuotes contents)
  match w.exec cmd timeout with
  | ExecResult.ok _ => WriteOutcome.mk [(cmd, timeout)] (Except.ok ())
  | ExecResult.err st => WriteOutcome.mk [(cmd, timeout)] (Except.error (JsErr.exec st))

/-- `writeNote` from the source: resolve contents from `options.template`
(if truthy), else from the file at `options.templatePath` (if truthy), else
return without doing anything; then escape and run the add command. -/
def writeNote (w : SysWorld) (noteName : String) (options : KOptions) : WriteOutcome :=
  if strTruthy options.template then
    runWrite w noteName options.timeout (options.template.getD "")
  else if strTruthy options.templatePath then
    match w.fsRead (options.templatePath.getD "") with
    | none => WriteOutcome.mk [] (Except.error JsErr.fsErr)
    | some contents => runWrite w noteName options.timeout contents
  else
    WriteOutcome.mk [] (Except.ok ())

/-- The in-place defaulting `setEnvFromNote` performs on the caller's
options object: `overwrite := false` and `timeout := 5000`, each only when
the property is absent. -/
def applyDefaults (options : KOptions) : KOptions :=
  let o1 :=
    if options.overwrite = none then
      KOptions.mk (some false) options.timeout options.template options.templatePath
    else options
  if o1.timeout = none then
    KOptions.mk o1.overwrite (some 5000) o1.template o1.templatePath
  else o1

/-- The environment-merge loop of `setEnvFromNote`: for each parsed key in
order, skip it when the variable is already set and `overwrite` is false,
otherwise assign it. -/
def mergeVars (overwrite : Bool) (env : EnvMap) : List (String × String) → EnvMap
  | [] => env
  | (k, v) :: rest =>
    if (env k).isSome && !overwrite then
      mergeVars overwrite env rest
    else
      mergeVars overwrite (fun q => if q = k then some v else env q) rest

/-- Full observable outcome of one `setEnvFromNote` call: its return/throw
result, the final process environment, the final state of the caller's
options object, and the subprocess invocations made on the read and write
paths. -/
structure CallResult where
  result : Except JsErr Unit
  env : EnvMap
  options : KOptions
  readCalls : List (String × Option Nat)
  writeCalls : List (String × Option Nat)

/-- `setEnvFromNote` from the source: validate the name, default the options
in place, run the read command; on success hex-decode the stdout, unwrap the
plist, parse with dotenv and merge into the environment; on a status-44
failure rethrow unless a template option is present, in which case fall
through to `writeNote` (with the same, already-defaulted options object);
rethrow any other failure. -/
def setEnvFromNote (w : SysWorld) (noteName : String) (options : KOptions)
    (env : EnvMap) : CallResult :=
  if noteName = "" then
    CallResult.mk (Except.error (JsErr.msg "You must supply a note name")) env options [] []
  else
    let opts := applyDefaults options
    let cmd := readCmd noteName
    match w.exec cmd opts.timeout with
    | ExecResult.ok stdout =>
      match noteFromPList w.plist (decodeHex w stdout) with
      | Except.error _ => CallResult.mk (Except.error JsErr.plistErr) env opts [(cmd, opts.timeout)] []
      | Except.ok none => CallResult.mk (Except.error JsErr.typeErr) env opts [(cmd, opts.timeout)] []
      | Except.ok (some note) =>
        CallResult.mk (Except.ok ())
          (mergeVars (opts.overwrite.getD false) env (w.dotenv note))
          opts [(cmd, opts.timeout)] []
    | ExecResult.err status =>
      if status = some 44 then
        if opts.template = none ∧ opts.templatePath = none then
          CallResult.mk (Except.error (JsErr.exec status)) env opts [(cmd, opts.timeout)] []
        else
          let wres := writeNote w noteName opts
          CallResult.mk wres.result env opts [(cmd, opts.timeout)] wres.calls
      else
        CallResult.mk (Except.error (JsErr.exec status)) env opts [(cmd, opts.timeout)] []

theorem applyDefaults_eq (options : KOptions) :
    applyDefaults options =
      KOptions.mk (some (options.overwrite.getD false)) (some (options.timeout.getD 5000))
        options.template options.templatePath := by
  obtain ⟨ov, ti, te, tp⟩ := options
  cases ov <;> cases ti <;> rfl

theorem mergeVars_not_mem (ov : Bool) : ∀ (vars : List (String × String)) (env : EnvMap)
    (k : String), k ∉ vars.map Prod.fst → mergeVars ov env vars k = env k
  | [], _, _, _ => rfl
  | (k0, v0) :: rest, env, k, h => by
      have hk : k ≠ k0 := fun he => h (by simp [he])
      have hrest : k ∉ rest.map Prod.fst := fun hm => h (by simp [hm])
      cases hE : env k0 with
      | none =>
        simp only [mergeVars, hE, Option.isSome_none, Bool.false_and, Bool.false_eq_true,
          if_false]
        rw [mergeVars_not_mem ov rest _ k hrest]
        simp [hk]
      | some x =>
        cases ov with
        | false =>
          simp only [mergeVars, hE, Option.isSome_some, Bool.not_false, Bool.and_true,
            if_true]
          exact mergeVars_not_mem false rest env k hrest
        | true =>
          simp only [mergeVars, hE, Bool.not_true, Bool.and_false, Bool.false_eq_true,
            if_false]
          rw [mergeVars_not_mem true rest _ k hrest]
          simp [hk]

theorem mergeVars_lookup (ov : Bool) : ∀ (vars : List (String × String)) (env : EnvMap)
    (k : String), (vars.map Prod.fst).Nodup →
    mergeVars ov env vars k =
      (match List.lookup k vars with
       | some v => if env k = none ∨ ov = true then some v else env k
       | none => env k)
  | [], env, k, _ => by simp [mergeVars, List.lookup]
  | (k0, v0) :: rest, env, k, h => by
      rw [List.map_cons, List.nodup_cons] at h
      obtain ⟨hk0, hnd⟩ := h
      by_cases hk : k = k0
      · subst hk
        have hlk : List.lookup k ((k, v0) :: rest) = some v0 := by
          simp [List.lookup]
        rw [hlk]
        cases hE : env k with
        | none =>
          simp only [mergeVars, hE, Option.isSome_none, Bool.false_and, Bool.false_eq_true,
            if_false]
          rw [mergeVars_not_mem ov rest _ k hk0]
          simp
        | some x =>
          cases ov with
          | false =>
            simp only [mergeVars, hE, Option.isSome_some, Bool.not_false, Bool.and_true,
              if_true]
            rw [mergeVars_not_mem false rest env k hk0, hE]
            simp
          | true =>
            simp only [mergeVars, hE, Bool.not_true, Bool.and_false, Bool.false_eq_true,
              if_false]
            rw [mergeVars_not_mem true rest _ k hk0]
            simp
      · have hbk : (k == k0) = false := by simp [hk]
        have hlk : List.lookup k ((k0, v0) :: rest) = List.lookup k rest := by
          simp [List.lookup, hbk]
        rw [hlk]
        cases hE : env k0 with
        | none =>
          simp only [mergeVars, hE, Option.isSome_none, Bool.false_and, Bool.false_eq_true,
            if_false]
          rw [mergeVars_lookup ov rest _ k hnd]
          simp [hk]
        | some x =>
          cases ov with
          | false =>
            simp only [mergeVars, hE, Option.isSome_some, Bool.not_false, Bool.and_true,
              if_true]
            exact mergeVars_lookup false rest env k hnd
          | true =>
            simp only [mergeVars, hE, Bool.not_true, Bool.and_false, Bool.false_eq_true,
              if_false]
            rw [mergeVars_lookup true rest _ k hnd]
            simp [hk]

/-- C1: on the FOUND path, `setEnvFromNote` merges the parsed mapping into
the environment in parse order, setting a key exactly when it is currently
unset or `options.overwrite` is true, and leaving every key not in the
mapping untouched. -/
theorem setEnvFromNote_merge_found (w : SysWorld) (noteName : String) (options : KOptions)
    (env : EnvMap) (stdout note : String)
    (h0 : noteName ≠ "")
    (h1 : w.exec (readCmd noteName) (some (options.timeout.getD 5000)) = ExecResult.ok stdout)
    (h2 : noteFromPList w.plist (decodeHex w stdout) = Except.ok (some note))
    (h3 : ((w.dotenv note).map Prod.fst).Nodup) :
    (setEnvFromNote w noteName options env).result = Except.ok () ∧
    ∀ k, (setEnvFromNote w noteName options env).env k =
      (match List.lookup k (w.dotenv note) with
       | some v => if env k = none ∨ options.overwrite.getD false = true then some v else env k
       | none => env k) := by
  constructor
  · simp only [setEnvFromNote, h0, if_false, applyDefaults_eq]
    rw [h1]
    dsimp only
    rw [h2]
  · intro k
    simp only [setEnvFromNote, h0, if_false, applyDefaults_eq]
    rw [h1]
    dsimp only
    rw [h2]
    dsimp only [Option.getD_some]
    rw [mergeVars_lookup (options.overwrite.getD false) (w.dotenv note) env k h3]

theorem runWrite_calls (w : SysWorld) (n : String) (t : Option Nat) (contents : String) :
    (runWrite w n t contents).calls = [(writeCmd n (escapeDoubleQuotes contents), t)] := by
  simp only [runWrite]
  cases w.exec (writeCmd n (escapeDoubleQuotes contents)) t <;> rfl

theorem runWrite_ok (w : SysWorld) (n : String) (t : Option Nat) (contents : String)
    (out : String)
    (h : w.exec (writeCmd n (escapeDoubleQuotes contents)) t = ExecResult.ok out) :
    (runWrite w n t contents).result = Except.ok () := by
  simp only [runWrite]
  rw [h]

theorem writeNote_calls_timeout (w : SysWorld) (n : String) (o : KOptions) :
    ∀ c ∈ (writeNote w n o).calls, c.2 = o.timeout := by
  simp only [writeNote]
  by_cases ht : strTruthy o.template = true
  · rw [if_pos ht]
    intro c hc
    rw [runWrite_calls] at hc
    simp at hc
    simp [hc]
  · rw [if_neg ht]
    by_cases hp : strTruthy o.templatePath = true
    · rw [if_pos hp]
      cases hf : w.fsRead (o.templatePath.getD "") with
      | none =>
        dsimp only
        intro c hc
        simp at hc
      | some contents =>
        dsimp only
        intro c hc
        rw [runWrite_calls] at hc
        simp at hc
        simp [hc]
    · rw [if_neg hp]
      intro c hc
      simp at hc

theorem writeNote_template (w : SysWorld) (n : String) (o : KOptions) (t : String)
    (hT : o.template = some t) (ht : t ≠ "") :
    writeNote w n o = runWrite w n o.timeout t := by
  simp only [writeNote, hT]
  rw [if_pos (by simp [strTruthy, ht])]
  rfl

theorem writeNote_falsy (w : SysWorld) (n : String) (o : KOptions)
    (h1 : strTruthy o.template = false) (h2 : strTruthy o.templatePath = false) :
    writeNote w n o = WriteOutcome.mk [] (Except.ok ()) := by
  simp only [writeNote]
  rw [if_neg (by simp [h1]), if_neg (by simp [h2])]

theorem writeNote_templatePath (w : SysWorld) (n : String) (o : KOptions)
    (p contents : String) (hT : strTruthy o.template = false) (hP : o.templatePath = some p)
    (hp : p ≠ "") (hf : w.fsRead p = some contents) :
    writeNote w n o = runWrite w n o.timeout contents := by
  simp only [writeNote]
  rw [if_neg (by simp [hT]), if_pos (by simp [strTruthy, hP, hp]), hP]
  dsimp only [Option.getD]
  rw [hf]

theorem setEnvFromNote_shape (w : SysWorld) (noteName : String) (options : KOptions)
    (env : EnvMap) (h0 : noteName ≠ "") :
    (setEnvFromNote w noteName options env).options = applyDefaults options ∧
    (setEnvFromNote w noteName options env).readCalls =
      [(readCmd noteName, some (options.timeout.getD 5000))] ∧
    ((setEnvFromNote w noteName options env).writeCalls = [] ∨
      ((setEnvFromNote w noteName options env).writeCalls =
          (writeNote w noteName (applyDefaults options)).calls ∧
        (setEnvFromNote w noteName options env).result =
          (writeNote w noteName (applyDefaults options)).result)) ∧
    (∀ e, (setEnvFromNote w noteName options env).result = Except.error e →
      (setEnvFromNote w noteName options env).env = env) ∧
    ((setEnvFromNote w noteName options env).writeCalls ≠ [] →
      (setEnvFromNote w noteName options env).env = env) := by
  simp only [setEnvFromNote, h0, if_false, applyDefaults_eq]
  cases hex : w.exec (readCmd noteName) (some (options.timeout.getD 5000)) with
  | ok stdout =>
    dsimp only
    cases hnp : noteFromPList w.plist (decodeHex w stdout) with
    | error e =>
      dsimp only
      exact ⟨rfl, rfl, Or.inl rfl, fun _ _ => rfl, fun _ => rfl⟩
    | ok v =>
      cases v with
      | none =>
        dsimp only
        exact ⟨rfl, rfl, Or.inl rfl, fun _ _ => rfl, fun _ => rfl⟩
      | some note =>
        dsimp only
        exact ⟨rfl, rfl, Or.inl rfl, fun e he => Except.noConfusion he, fun h => absurd rfl h⟩
  | err status =>
    dsimp only
    by_cases h44 : status = some 44
    · rw [if_pos h44]
      by_cases htp : options.template = none ∧ options.templatePath = none
      · rw [if_pos htp]
        dsimp only
        exact ⟨rfl, rfl, Or.inl rfl, fun _ _ => rfl, fun _ => rfl⟩
      · rw [if_neg htp]
        dsimp only
        exact ⟨rfl, rfl, Or.inr ⟨rfl, rfl⟩, fun _ _ => rfl, fun _ => rfl⟩
    · rw [if_neg h44]
      dsimp only
      exact ⟨rfl, rfl, Or.inl rfl, fun _ _ => rfl, fun _ => rfl⟩

/-- C9: there is no partial-success state: whenever a call to the entry point
fails, the environment is unchanged; the write path never touches the
environment; and when the read invocation fails with a timeout-style error
(subprocess killed, `status = null`), the call fails with that store error,
the environment is unchanged, and no write is attempted. -/
theorem no_partial_mutation (w : SysWorld) (noteName : String) (options : KOptions)
    (env : EnvMap) :
    (∀ e, (setEnvFromNote w noteName options env).result = Except.error e →
      (setEnvFromNote w noteName options env).env = env) ∧
    ((setEnvFromNote w noteName options env).writeCalls ≠ [] →
      (setEnvFromNote w noteName options env).env = env) ∧
    (noteName ≠ "" →
      w.exec (readCmd noteName) (some (options.timeout.getD 5000)) = ExecResult.err none →
      (setEnvFromNote w noteName options env).result = Except.error (JsErr.exec none) ∧
      (setEnvFromNote w noteName options env).env = env ∧
      (setEnvFromNote w noteName options env).writeCalls = []) := by
  by_cases h0 : noteName = ""
  · exact ⟨fun _ _ => by simp [setEnvFromNote, h0], fun _ => by simp [setEnvFromNote, h0],
      fun hne _ => absurd h0 hne⟩
  · have hs := setEnvFromNote_shape w noteName options env h0
    refine ⟨hs.2.2.2.1, hs.2.2.2.2, ?_⟩
    intro _ hex
    simp only [setEnvFromNote, h0, if_false, applyDefaults_eq]
    rw [hex]
    dsimp only
    rw [if_neg (by simp : ¬(none : Option Int) = some 44)]
    exact ⟨rfl, rfl, rfl⟩

/-- C10 (amended): for every call with a non-empty note name the function
mutates the caller-supplied options object in place, writing `overwrite :=
false` and `timeout := 5000` exactly for the omitted properties (keeping
supplied values and the template properties); with an empty note name it
throws before touching the options object, which stays unchanged. -/
theorem options_defaulted_in_place (w : SysWorld) (noteName : String) (options : KOptions)
    (env : EnvMap) :
    (noteName ≠ "" → (setEnvFromNote w noteName options env).options =
      KOptions.mk (some (options.overwrite.getD false)) (some (options.timeout.getD 5000))
        options.template options.templatePath) ∧
    (noteName = "" → (setEnvFromNote w noteName options env).options = options) := by
  constructor
  · intro h0
    rw [(setEnvFromNote_shape w noteName options env h0).1, applyDefaults_eq]
  · intro h0
    simp [setEnvFromNote, h0]

/-- C4 (amended): the read invocation's timeout defaults to 5000 ms when the
caller omits it; `writeNote` itself adds no default (its subprocess call uses
exactly `options.timeout`, absent or not); but since `setEnvFromNote`
defaults the shared options object in place before delegating, a
caller-omitted timeout reaches the fallback write invocation as the read
path's default 5000. -/
theorem timeout_default_spec (w : SysWorld) (noteName : String) (options : KOptions)
    (env : EnvMap) :
    (noteName ≠ "" → options.timeout = none →
      (setEnvFromNote w noteName options env).readCalls = [(readCmd noteName, some 5000)]) ∧
    (∀ n, ∀ c ∈ (writeNote w n options).calls, c.2 = options.timeout) ∧
    (noteName ≠ "" → options.timeout = none →
      ∀ c ∈ (setEnvFromNote w noteName options env).writeCalls, c.2 = some 5000) := by
  refine ⟨?_, fun n => writeNote_calls_timeout w n options, ?_⟩
  · intro h0 hti
    rw [(setEnvFromNote_shape w noteName options env h0).2.1, hti]
    rfl
  · intro h0 hti c hc
    rcases (setEnvFromNote_shape w noteName options env h0).2.2.1 with hempty | ⟨hcalls, _⟩
    · rw [hempty] at hc
      simp at hc
    · rw [hcalls] at hc
      have hct := writeNote_calls_timeout w noteName (applyDefaults options) c hc
      rw [hct, applyDefaults_eq]
      simp [hti]

/-- C8 (amended): on the NOT_FOUND path (read fails with status 44): with no
template options the call rethrows the not-found failure, issues no write and
leaves the environment untouched; with a non-empty `template` exactly one
write invocation is issued with the escaped contents (whatever
`templatePath` holds — the literal template takes precedence) and the
environment stays untouched, the call succeeding when the write subprocess
succeeds; with only a non-empty `templatePath` (and no truthy `template`)
whose file read succeeds, one write invocation is likewise issued with the
escaped file contents, the environment stays untouched and the call succeeds
when the write subprocess succeeds; but a supplied-yet-empty (falsy)
`template` with no `templatePath` issues no write at all and the call
silently succeeds. -/
theorem fallback_not_found_spec (w : SysWorld) (noteName : String) (options : KOptions)
    (env : EnvMap) (h0 : noteName ≠ "")
    (h44 : w.exec (readCmd noteName) (some (options.timeout.getD 5000)) =
      ExecResult.err (some 44)) :
    (options.template = none → options.templatePath = none →
      (setEnvFromNote w noteName options env).result = Except.error (JsErr.exec (some 44)) ∧
      (setEnvFromNote w noteName options env).writeCalls = [] ∧
      (setEnvFromNote w noteName options env).env = env) ∧
    (∀ t, options.template = some t → t ≠ "" →
      (setEnvFromNote w noteName options env).writeCalls =
        [(writeCmd noteName (escapeDoubleQuotes t), some (options.timeout.getD 5000))] ∧
      (setEnvFromNote w noteName options env).env = env ∧
      (∀ out, w.exec (writeCmd noteName (escapeDoubleQuotes t))
          (some (options.timeout.getD 5000)) = ExecResult.ok out →
        (setEnvFromNote w noteName options env).result = Except.ok ())) ∧
    (∀ p contents, strTruthy options.template = false → options.templatePath = some p →
      p ≠ "" → w.fsRead p = some contents →
      (setEnvFromNote w noteName options env).writeCalls =
        [(writeCmd noteName (escapeDoubleQuotes contents), some (options.timeout.getD 5000))] ∧
      (setEnvFromNote w noteName options env).env = env ∧
      (∀ out, w.exec (writeCmd noteName (escapeDoubleQuotes contents))
          (some (options.timeout.getD 5000)) = ExecResult.ok out →
        (setEnvFromNote w noteName options env).result = Except.ok ())) ∧
    (options.template = some "" → options.templatePath = none →
      (setEnvFromNote w noteName options env).writeCalls = [] ∧
      (setEnvFromNote w noteName options env).result = Except.ok () ∧
      (setEnvFromNote w noteName options env).env = env) := by
  simp only [setEnvFromNote, h0, if_false, applyDefaults_eq]
  rw [h44]
  dsimp only
  rw [if_pos rfl]
  refine ⟨?_, ?_, ?_, ?_⟩
  · intro hT hP
    rw [if_pos ⟨hT, hP⟩]
    exact ⟨rfl, rfl, rfl⟩
  · intro t hT ht
    have hcond : ¬(options.template = none ∧ options.templatePath = none) := by
      intro hc
      rw [hT] at hc
      exact Option.noConfusion hc.1
    rw [if_neg hcond]
    dsimp only
    have hwn : writeNote w noteName
        (KOptions.mk (some (options.overwrite.getD false)) (some (options.timeout.getD 5000))
          options.template options.templatePath) =
        runWrite w noteName (some (options.timeout.getD 5000)) t :=
      writeNote_template w noteName _ t hT ht
    rw [hwn]
    refine ⟨runWrite_calls w noteName _ t, rfl, ?_⟩
    intro out hok
    exact runWrite_ok w noteName _ t out hok
  · intro p contents hT hP hp hf
    have hcond : ¬(options.template = none ∧ options.templatePath = none) := by
      intro hc
      rw [hP] at hc
      exact Option.noConfusion hc.2
    rw [if_neg hcond]
    dsimp only
    have hwn : writeNote w noteName
        (KOptions.mk (some (options.overwrite.getD false)) (some (options.timeout.getD 5000))
          options.template options.templatePath) =
        runWrite w noteName (some (options.timeout.getD 5000)) contents :=
      writeNote_templatePath w noteName _ p contents hT hP hp hf
    rw [hwn]
    refine ⟨runWrite_calls w noteName _ contents, rfl, ?_⟩
    intro out hok
    exact runWrite_ok w noteName _ contents out hok
  · intro hT hP
    have hcond : ¬(options.template = none ∧ options.templatePath = none) := by
      intro hc
      rw [hT] at hc
      exact Option.noConfusion hc.1
    rw [if_neg hcond]
    dsimp only
    have hwn : writeNote w noteName
        (KOptions.mk (some (options.overwrite.getD false)) (some (options.timeout.getD 5000))
          options.template options.templatePath) =
        WriteOutcome.mk [] (Except.ok ()) := by
      apply writeNote_falsy
      · show strTruthy options.template = false
        rw [hT]
        rfl
      · show strTruthy options.templatePath = false
        rw [hP]
        rfl
    rw [hwn]
    exact ⟨rfl, rfl, rfl⟩

/-- Concrete world for the FOUND-path witness: the read succeeds with empty
stdout, the decoded bytes read back as the note text `"note0"`, and dotenv
parses it to the mapping of the spec's merge example. -/
def foundWorld : SysWorld :=
  SysWorld.mk (fun _ _ => ExecResult.ok "") (fun _ => "note0") (fun _ => Except.error ())
    (fun _ => [("FOO", "new"), ("BAR", "new")]) (fun _ => none)

/-- Concrete environment with `FOO=old` set and everything else unset. -/
def fooOldEnv : EnvMap := fun k => if k = "FOO" then some "old" else none

theorem setEnvFromNote_merge_found_witness :
    (setEnvFromNote foundWorld "n" (KOptions.mk (some false) none none none) fooOldEnv).env
        "FOO" = some "old" ∧
    (setEnvFromNote foundWorld "n" (KOptions.mk (some false) none none none) fooOldEnv).env
        "BAR" = some "new" ∧
    (setEnvFromNote foundWorld "n" (KOptions.mk (some true) none none none) fooOldEnv).env
        "FOO" = some "new" :=
  ⟨((setEnvFromNote_merge_found foundWorld "n" (KOptions.mk (some false) none none none)
      fooOldEnv "" "note0" (by decide) rfl rfl (by decide)).2 "FOO").trans (by decide),
   ((setEnvFromNote_merge_found foundWorld "n" (KOptions.mk (some false) none none none)
      fooOldEnv "" "note0" (by decide) rfl rfl (by decide)).2 "BAR").trans (by decide),
   ((setEnvFromNote_merge_found foundWorld "n" (KOptions.mk (some true) none none none)
      fooOldEnv "" "note0" (by decide) rfl rfl (by decide)).2 "FOO").trans (by decide)⟩

/-- Concrete world whose read invocation always reports status 44
(no such record) and whose write invocation also fails. -/
def notFoundWorld : SysWorld :=
  SysWorld.mk (fun _ _ => ExecResult.err (some 44)) (fun _ => "") (fun _ => Except.error ())
    (fun _ => []) (fun _ => none)

/-- Concrete world whose read invocation fails like a timeout kill
(`status = null`). -/
def timeoutWorld : SysWorld :=
  SysWorld.mk (fun _ _ => ExecResult.err none) (fun _ => "") (fun _ => Except.error ())
    (fun _ => []) (fun _ => none)

/-- Concrete world whose read invocation reports status 44 and whose write
invocation succeeds. -/
def notFoundWriteOkWorld : SysWorld :=
  SysWorld.mk
    (fun cmd _ => if cmd = readCmd "n" then ExecResult.err (some 44) else ExecResult.ok "")
    (fun _ => "") (fun _ => Except.error ()) (fun _ => []) (fun _ => none)

/-- Concrete world whose read invocation reports status 44, whose write
invocation succeeds, and whose filesystem holds a template file
`tpl.env` with contents `Y=2`. -/
def notFoundFileWorld : SysWorld :=
  SysWorld.mk
    (fun cmd _ => if cmd = readCmd "n" then ExecResult.err (some 44) else ExecResult.ok "")
    (fun _ => "") (fun _ => Except.error ()) (fun _ => [])
    (fun path => if path = "tpl.env" then some "Y=2" else none)

theorem no_partial_mutation_witness :
    "n" ≠ "" ∧
    (setEnvFromNote timeoutWorld "n" (KOptions.mk none none none none) fooOldEnv).result =
      Except.error (JsErr.exec none) ∧
    (setEnvFromNote timeoutWorld "n" (KOptions.mk none none none none) fooOldEnv).env =
      fooOldEnv ∧
    (setEnvFromNote timeoutWorld "n" (KOptions.mk none none none none) fooOldEnv).writeCalls =
      [] :=
  ⟨by decide,
    (no_partial_mutation timeoutWorld "n" (KOptions.mk none none none none) fooOldEnv).2.2
      (by decide) rfl⟩

theorem options_defaulted_in_place_witness :
    (setEnvFromNote notFoundWorld "n" (KOptions.mk none none none none) fooOldEnv).options =
      KOptions.mk (some false) (some 5000) none none :=
  ((options_defaulted_in_place notFoundWorld "n" (KOptions.mk none none none none)
      fooOldEnv).1 (by decide)).trans (by decide)

/-- C10 counterexample: a call with an empty note name and both `overwrite`
and `timeout` omitted throws before the defaulting runs, so the caller's
options object is NOT mutated — both properties are still absent afterwards,
refuting the claim that every such call writes the defaults into it. -/
theorem options_not_mutated_empty_name :
    (setEnvFromNote notFoundWorld "" (KOptions.mk none none none none) fooOldEnv).options.overwrite
        = none ∧
    (setEnvFromNote notFoundWorld "" (KOptions.mk none none none none) fooOldEnv).options.timeout
        = none :=
  ⟨rfl, rfl⟩

theorem timeout_default_spec_witness :
    "n" ≠ "" ∧
    (setEnvFromNote notFoundWorld "n" (KOptions.mk none none none none) fooOldEnv).readCalls =
      [(readCmd "n", some 5000)] :=
  ⟨by decide,
    (timeout_default_spec notFoundWorld "n" (KOptions.mk none none none none) fooOldEnv).1
      (by decide) rfl⟩

/-- C4 counterexample: the caller omits `timeout` entirely, the record is
absent and a literal template is supplied — the fallback write invocation
runs with timeout 5000, i.e. the read path's default HAS been merged into
the write path (via the in-place mutation of the shared options object),
refuting "caller-supplied with no default merged in". -/
theorem write_timeout_default_merged :
    ((setEnvFromNote notFoundWorld "n" (KOptions.mk none none (some "X=1") none)
        fooOldEnv).writeCalls.map Prod.snd) = [some 5000] := by
  rfl

theorem fallback_not_found_spec_witness :
    ((setEnvFromNote notFoundWriteOkWorld "n" (KOptions.mk none none (some "X=1") none)
        fooOldEnv).writeCalls =
      [(writeCmd "n" (escapeDoubleQuotes "X=1"), some 5000)] ∧
    (setEnvFromNote notFoundWriteOkWorld "n" (KOptions.mk none none (some "X=1") none)
        fooOldEnv).env = fooOldEnv ∧
    (setEnvFromNote notFoundWriteOkWorld "n" (KOptions.mk none none (some "X=1") none)
        fooOldEnv).result = Except.ok ()) ∧
    ((setEnvFromNote notFoundFileWorld "n" (KOptions.mk none none none (some "tpl.env"))
        fooOldEnv).writeCalls =
      [(writeCmd "n" (escapeDoubleQuotes "Y=2"), some 5000)] ∧
    (setEnvFromNote notFoundFileWorld "n" (KOptions.mk none none none (some "tpl.env"))
        fooOldEnv).result = Except.ok ()) :=
  have h := (fallback_not_found_spec notFoundWriteOkWorld "n"
    (KOptions.mk none none (some "X=1") none) fooOldEnv (by decide) rfl).2.1 "X=1" rfl
    (by decide)
  have h2 := (fallback_not_found_spec notFoundFileWorld "n"
    (KOptions.mk none none none (some "tpl.env")) fooOldEnv (by decide) rfl).2.2.1
    "tpl.env" "Y=2" rfl rfl (by decide) rfl
  ⟨⟨h.1, h.2.1, h.2.2 "" (by decide)⟩, ⟨h2.1, h2.2.2 "" (by decide)⟩⟩

/-- C8 counterexample: the record is absent and a template IS supplied — but
it is the empty string, which the `=== undefined` check lets through while
`writeNote`'s truthiness check rejects it: no write invocation is issued at
all, yet the call succeeds, refuting "a store write invocation is issued
... and the call succeeds". -/
theorem fallback_empty_template_no_write :
    (setEnvFromNote notFoundWorld "n" (KOptions.mk none none (some "") none)
        fooOldEnv).writeCalls = [] ∧
    (setEnvFromNote notFoundWorld "n" (KOptions.mk none none (some "") none)
        fooOldEnv).result = Except.ok () :=
  ⟨rfl, rfl⟩
